import Mathlib

/-!
Shallow embedding of the `dbrouter` Go package (src/db.go, src/resolver.go,
the statement façade and the `doConcurrent` helper) and proofs about it.

Modelling conventions:
* `*sql.DB` / `*sql.Stmt` handles are abstract type parameters `Conn` / values
  of `Option Handle` where Go nil-ability matters.
* The `uint64 readOnlyCount` counter is a `Nat` taken modulo `W = 2^64`
  exactly where Go's `atomic.AddUint64` wraps.
* Goroutine nondeterminism in `doConcurrent` is an explicit `order` argument:
  the order in which the collecting loop observes the per-index results,
  constrained to be a permutation of `0..n-1`.
* The `stmt.db` back-pointer (shared mutable counter) is modelled by passing
  the `DBImplementation` state explicitly and returning the updated state.
-/

namespace DBRouter

/-- The value `2^64`, the modulus of Go's `uint64` arithmetic. -/
def W : Nat := 2 ^ 64

/-- The `DBImplementation` struct of src/db.go: one read-write primary,
an ordered list of read-only replicas, the stored total connection count and
the `uint64` round-robin counter. -/
structure DBImplementation (Conn : Type) where
  readWriteDB : Conn
  readOnlyDBs : List Conn
  totalConnections : Nat
  readOnlyCount : Nat
  deriving Repr, DecidableEq

/-- The intended structural invariant: `totalConnections` is one primary plus
the replicas (established by both constructors, claim C10). -/
def WF {Conn : Type} (db : DBImplementation Conn) : Prop :=
  db.totalConnections = 1 + db.readOnlyDBs.length

instance {Conn : Type} (db : DBImplementation Conn) : Decidable (WF db) := by
  unfold WF; infer_instance

/-- Function `roundRobin` of src/db.go:
`int(atomic.AddUint64(&db.readOnlyCount, 1) % uint64(n))`.
The atomic add wraps at `2^64`; the call returns the selected index and the
updated state. -/
def roundRobin {Conn : Type} (db : DBImplementation Conn) (n : Nat) :
    Nat × DBImplementation Conn :=
  let c := (db.readOnlyCount + 1) % W
  (c % n, { db with readOnlyCount := c })

/-- Method `ReadOnly` of src/db.go: with a single total connection it returns the
primary unchanged; otherwise it indexes the replica list at the round-robin
index. The Go slice indexing (which panics out of range) is modelled with
`List.getElem?`, so a panic shows up as `none`. -/
def ReadOnly {Conn : Type} (db : DBImplementation Conn) :
    Option Conn × DBImplementation Conn :=
  if db.totalConnections = 1 then (some db.readWriteDB, db)
  else
    let p := roundRobin db db.readOnlyDBs.length
    (db.readOnlyDBs[p.1]?, p.2)

/-- Method `ReadWrite` of src/db.go: always the primary, no state change. -/
def ReadWrite {Conn : Type} (db : DBImplementation Conn) : Conn :=
  db.readWriteDB

/-- State after `k` successive `ReadOnly()` calls. -/
def iterReadOnly {Conn : Type} (db : DBImplementation Conn) : Nat → DBImplementation Conn
  | 0 => db
  | k + 1 => (ReadOnly (iterReadOnly db k)).2

/-- The handle returned by the `(k+1)`-st of a run of successive `ReadOnly()`
calls (0-indexed). -/
def nthReadOnly {Conn : Type} (db : DBImplementation Conn) (k : Nat) : Option Conn :=
  (ReadOnly (iterReadOnly db k)).1

/-- The `stmt` struct of the statement façade file: the primary's prepared
handle and the ordered replica prepared handles.  Go's `*sql.Stmt` pointers
may be nil, hence `Option`.  The `db *DB` back-pointer is modelled by passing
the `DBImplementation` state explicitly to the statement operations. -/
structure stmt (Handle : Type) where
  rwstmt : Option Handle
  rostmts : List (Option Handle)
  deriving Repr, DecidableEq

/-- Method `stmt.RWStmt`: the prepared statement for the RW (master) database. -/
def stmt.RWStmt {Handle : Type} (s : stmt Handle) : Option Handle :=
  s.rwstmt

/-- Method `stmt.ROStmt`: with no replica prepared handles it falls back to the RW
handle without touching the counter; otherwise it indexes `rostmts` at the
shared round-robin index (`s.db.roundRobin(len(s.rostmts))`), advancing the
owning connection set's counter. -/
def stmt.ROStmt {Conn Handle : Type} (s : stmt Handle) (db : DBImplementation Conn) :
    Option Handle × DBImplementation Conn :=
  if s.rostmts.length = 0 then (s.rwstmt, db)
  else
    let p := roundRobin db s.rostmts.length
    ((s.rostmts[p.1]?).join, p.2)

/-- The error value a fallible Go call returns: `none` is Go's `nil` error. -/
def errOpt {ε α : Type} : Except ε α → Option ε
  | .error e => some e
  | .ok _ => none

/-- The collecting loop of `doConcurrent`:
`for i := 0; i < n; i++ { if e := <-errors; e != nil { err = e } }`.
`es` is the sequence of results in the order the loop receives them. -/
def collectErrors {ε : Type} (es : List (Option ε)) : Option ε :=
  es.foldl (fun acc e => match e with | some x => some x | none => acc) none

/-- Function `doConcurrent(n, fn)` of the concurrency helper file: runs `fn i` for each
`i < n` in goroutines, gathers the results over a buffered channel, and keeps
the last non-nil error.  The channel delivery order is the nondeterministic
`order` argument, a permutation of `0..n-1` (hypothesised in the theorems). -/
def doConcurrent {ε : Type} (n : Nat) (fn : Nat → Option ε) (order : List Nat) : Option ε :=
  let _ := n
  collectErrors (order.map fn)

/-- Function `WrapDBs` of src/resolver.go: panics (`none`) on an empty handle list,
otherwise the first handle is the primary, the rest are the replicas, and the
total is the list length; the counter starts zero-initialised. -/
def WrapDBs {Conn : Type} (dbs : List Conn) : Option (DBImplementation Conn) :=
  match dbs with
  | [] => none
  | d :: rest =>
    some { readWriteDB := d, readOnlyDBs := rest,
           totalConnections := (d :: rest).length, readOnlyCount := 0 }

/-- Go's `strings.Split` for a one-character separator, at the character-list
level: splits around every occurrence of `sep`; the result is never empty
(splitting the empty string yields one empty segment). -/
def goSplit (sep : Char) : List Char → List (List Char)
  | [] => [[]]
  | c :: rest =>
    if c = sep then [] :: goSplit sep rest
    else
      match goSplit sep rest with
      | [] => [[c]]
      | s :: ss => (c :: s) :: ss

/-- The per-index operation `Open` hands to `doConcurrent` (via
`openConnections`): index 0 opens the primary, index `i ≥ 1` opens replica
`i-1`.  `openConn` abstracts `sql.Open` for one connection string; an
out-of-range index (impossible for `i < len conns`) reports no error. -/
def openErrAt {Conn ε : Type} (openConn : List Char → Except ε Conn)
    (conns : List (List Char)) (i : Nat) : Option ε :=
  match conns[i]? with
  | some s => errOpt (openConn s)
  | none => none

/-- Function `Open` of src/db.go: splits the data source name on `;`, allocates
`len(conns)-1` replica slots and `totalConnections = len(conns)`, opens every
segment through `doConcurrent`, and returns the error aggregate on failure.
On success every `openConn` succeeded, so the `toOption`-projections recover
exactly the opened handles (primary from segment 0, replicas in order). -/
def Open {Conn ε : Type} [Inhabited Conn] (openConn : List Char → Except ε Conn)
    (dataSourceName : List Char) (order : List Nat) :
    Except ε (DBImplementation Conn) :=
  let conns := goSplit ';' dataSourceName
  match doConcurrent conns.length (openErrAt openConn conns) order with
  | some e => .error e
  | none =>
    .ok { readWriteDB := ((openConn (conns.headD [])).toOption).getD default,
          readOnlyDBs := (conns.drop 1).filterMap (fun s => (openConn s).toOption),
          totalConnections := conns.length,
          readOnlyCount := 0 }

/-- The per-index operation `Prepare`/`PrepareContext` hand to `doConcurrent`:
index 0 prepares on the primary, index `i ≥ 1` on replica `i-1`.  `prep`
abstracts one `(*sql.DB).Prepare` call. -/
def prepErrAt {Conn Handle ε : Type} (db : DBImplementation Conn)
    (prep : Conn → Except ε Handle) (i : Nat) : Option ε :=
  if i = 0 then errOpt (prep db.readWriteDB)
  else
    match db.readOnlyDBs[i - 1]? with
    | some c => errOpt (prep c)
    | none => none

/-- Method `Prepare` of src/db.go: prepares the query on all `totalConnections`
targets through `doConcurrent`; if the aggregate error is non-nil the
partially built statement is dropped and only the error is returned,
otherwise the statement holds the primary's prepared handle and the replica
prepared handles in replica-list order. -/
def Prepare {Conn Handle ε : Type} (db : DBImplementation Conn)
    (prep : Conn → Except ε Handle) (order : List Nat) :
    Except ε (stmt Handle) :=
  match doConcurrent db.totalConnections (prepErrAt db prep) order with
  | some e => .error e
  | none =>
    .ok { rwstmt := (prep db.readWriteDB).toOption,
          rostmts := db.readOnlyDBs.map (fun c => (prep c).toOption) }

/-- One delegated pool-configuration call on a single underlying connection:
which handle received it and which setter with which argument.  Durations are
modelled as integers (nanosecond counts). -/
inductive PoolEvent (Conn : Type) where
  | maxIdleConns (c : Conn) (n : Int)
  | maxOpenConns (c : Conn) (n : Int)
  | connMaxLifetime (c : Conn) (d : Int)
  | connMaxIdleTime (c : Conn) (d : Int)
  deriving Repr, DecidableEq

/-- Method `SetMaxIdleConns` of src/db.go: the primary's setter is called first, then
each replica's in list order; nothing is returned.  The value is the exact
sequence of delegated calls. -/
def SetMaxIdleConns {Conn : Type} (db : DBImplementation Conn) (n : Int) :
    List (PoolEvent Conn) :=
  PoolEvent.maxIdleConns db.readWriteDB n ::
    db.readOnlyDBs.map (fun roDB => PoolEvent.maxIdleConns roDB n)

/-- Method `SetMaxOpenConns` of src/db.go: primary first, then each replica in order. -/
def SetMaxOpenConns {Conn : Type} (db : DBImplementation Conn) (n : Int) :
    List (PoolEvent Conn) :=
  PoolEvent.maxOpenConns db.readWriteDB n ::
    db.readOnlyDBs.map (fun roDB => PoolEvent.maxOpenConns roDB n)

/-- Method `SetConnMaxLifetime` of src/db.go: primary first, then each replica in order. -/
def SetConnMaxLifetime {Conn : Type} (db : DBImplementation Conn) (d : Int) :
    List (PoolEvent Conn) :=
  PoolEvent.connMaxLifetime db.readWriteDB d ::
    db.readOnlyDBs.map (fun roDB => PoolEvent.connMaxLifetime roDB d)

/-- Method `SetConnMaxIdleTime` of src/db.go: primary first, then each replica in
index order (the source iterates `for i := range` here, same order). -/
def SetConnMaxIdleTime {Conn : Type} (db : DBImplementation Conn) (d : Int) :
    List (PoolEvent Conn) :=
  PoolEvent.connMaxIdleTime db.readWriteDB d ::
    db.readOnlyDBs.map (fun roDB => PoolEvent.connMaxIdleTime roDB d)

/-- The target a pool event was delivered to. -/
def PoolEvent.target {Conn : Type} : PoolEvent Conn → Conn
  | .maxIdleConns c _ => c
  | .maxOpenConns c _ => c
  | .connMaxLifetime c _ => c
  | .connMaxIdleTime c _ => c

/-- Methods `Exec`/`ExecContext` of src/db.go delegate to `ReadWrite()`: the handle
that executes the statement. -/
def ExecTarget {Conn : Type} (db : DBImplementation Conn) : Conn :=
  ReadWrite db

/-- Methods `Begin`/`BeginTx` of src/db.go delegate to `ReadWrite()`: the handle the
transaction is started on. -/
def BeginTarget {Conn : Type} (db : DBImplementation Conn) : Conn :=
  ReadWrite db

/-- Methods `Query`/`QueryContext`/`QueryRow`/`QueryRowContext` of src/db.go delegate
to `ReadOnly()`: the handle that runs the read, plus the updated state. -/
def QueryTarget {Conn : Type} (db : DBImplementation Conn) :
    Option Conn × DBImplementation Conn :=
  ReadOnly db

/-- Methods `stmt.Query`/`QueryContext`/`QueryRow`/`QueryRowContext` delegate to
`s.ROStmt()`: the prepared handle that runs the read, plus the updated state. -/
def stmt.QueryTarget {Conn Handle : Type} (s : stmt Handle)
    (db : DBImplementation Conn) : Option Handle × DBImplementation Conn :=
  stmt.ROStmt s db

/-- Methods `stmt.Exec`/`ExecContext` delegate to `s.RWStmt()`. -/
def stmt.ExecTarget {Handle : Type} (s : stmt Handle) : Option Handle :=
  stmt.RWStmt s

/-- The operations of the public surface, as far as they touch the shared
`DBImplementation` state.  `readOnly` is a `ReadOnly()`-routed call (`Query`,
`QueryRow`, …); `stmtRead` is a statement-level read through `ROStmt`;
the remaining operations delegate to fixed handles or to the underlying
driver and leave the routing state untouched. -/
inductive Op (Conn Handle : Type) where
  | readOnly
  | stmtRead (s : stmt Handle)
  | readWrite
  | execOp
  | beginOp
  | pingOp
  | setPool (e : Int)
  deriving Repr

/-- Effect of one operation on the `DBImplementation` state. -/
def applyOp {Conn Handle : Type} (db : DBImplementation Conn) :
    Op Conn Handle → DBImplementation Conn
  | .readOnly => (ReadOnly db).2
  | .stmtRead s => (stmt.ROStmt s db).2
  | .readWrite => db
  | .execOp => db
  | .beginOp => db
  | .pingOp => db
  | .setPool _ => db

/-- State after a sequence of operations. -/
def runOps {Conn Handle : Type} (db : DBImplementation Conn) :
    List (Op Conn Handle) → DBImplementation Conn
  | [] => db
  | op :: ops => runOps (applyOp db op) ops

/-- The round-robin index computed by the `(k+1)`-st of a run of successive
`ReadOnly()` calls. -/
def nthReadOnlyIndex {Conn : Type} (db : DBImplementation Conn) (k : Nat) : Nat :=
  (roundRobin (iterReadOnly db k) (iterReadOnly db k).readOnlyDBs.length).1

section Helpers

variable {Conn Handle ε : Type}

lemma getLast?_cons_or (x : α) (l : List α) :
    (x :: l).getLast? = (l.getLast?).or (some x) := by
  cases l with
  | nil => rfl
  | cons y ys =>
    rw [List.getLast?_cons_cons]
    cases h : (y :: ys).getLast? with
    | none => simp [List.getLast?_eq_getLast] at h
    | some z => rfl

lemma foldl_collect (es : List (Option ε)) (acc : Option ε) :
    es.foldl (fun acc e => match e with | some x => some x | none => acc) acc
      = ((es.filterMap id).getLast?).or acc := by
  induction es generalizing acc with
  | nil => rfl
  | cons e es ih =>
    cases e with
    | none => simpa using ih acc
    | some x =>
      simp only [List.foldl_cons]
      rw [ih (some x)]
      have hfm : List.filterMap id (some x :: es) = x :: List.filterMap id es := by
        simp
      rw [hfm, getLast?_cons_or, Option.or_assoc]
      rfl

lemma collectErrors_eq (es : List (Option ε)) :
    collectErrors es = (es.filterMap id).getLast? := by
  rw [collectErrors, foldl_collect, Option.or_none]

lemma collectErrors_eq_none_iff (es : List (Option ε)) :
    collectErrors es = none ↔ ∀ e ∈ es, e = none := by
  rw [collectErrors_eq, List.getLast?_eq_none_iff, List.filterMap_eq_nil_iff]
  simp

lemma doConcurrent_eq_none_iff (n : Nat) (fn : Nat → Option ε) (order : List Nat)
    (h : order.Perm (List.range n)) :
    doConcurrent n fn order = none ↔ ∀ i < n, fn i = none := by
  rw [doConcurrent, collectErrors_eq_none_iff]
  constructor
  · intro hall i hi
    exact hall (fn i) (List.mem_map_of_mem fn (h.mem_iff.mpr (List.mem_range.mpr hi)))
  · intro hall e he
    obtain ⟨i, hi, rfl⟩ := List.mem_map.mp he
    exact hall i (List.mem_range.mp (h.mem_iff.mp hi))

lemma errOpt_eq_none_iff (x : Except ε α) : errOpt x = none ↔ x.isOk = true := by
  cases x <;> simp [errOpt, Except.isOk, Except.toBool]

lemma W_pos : 0 < W := by decide

lemma one_lt_W : 1 < W := by decide

lemma add_one_mod_W (a : Nat) : (a % W + 1) % W = (a + 1) % W := by
  rw [Nat.add_mod a 1 W, Nat.mod_eq_of_lt one_lt_W]

lemma succ_mod_mod (a R : Nat) : (a + 1) % R = (a % R + 1) % R := by
  conv_lhs => rw [Nat.add_mod]
  conv_rhs => rw [Nat.add_mod]
  rw [Nat.mod_mod_of_dvd _ dvd_rfl]

/-- With at least one replica and the structural invariant, `ReadOnly` takes
the round-robin branch: the counter advances by one modulo `2^64` and the
result indexes the replica list at the new counter modulo the replica count. -/
lemma readOnly_step (db : DBImplementation Conn) (hWF : WF db)
    (hR : 1 ≤ db.readOnlyDBs.length) :
    (ReadOnly db).2 = { db with readOnlyCount := (db.readOnlyCount + 1) % W } ∧
      (ReadOnly db).1 =
        db.readOnlyDBs[((db.readOnlyCount + 1) % W) % db.readOnlyDBs.length]? := by
  have hne : ¬ db.totalConnections = 1 := by
    rw [WF] at hWF; omega
  rw [ReadOnly, if_neg hne]
  exact ⟨rfl, rfl⟩

/-- Closed form of the state after `k` successive `ReadOnly()` calls: only the
counter changes, advancing by `k` modulo `2^64`. -/
lemma iterReadOnly_spec (db : DBImplementation Conn) (hWF : WF db)
    (hR : 1 ≤ db.readOnlyDBs.length) (hc : db.readOnlyCount < W) (k : Nat) :
    iterReadOnly db k = { db with readOnlyCount := (db.readOnlyCount + k) % W } := by
  induction k with
  | zero =>
    simp [iterReadOnly, Nat.mod_eq_of_lt hc]
  | succ k ih =>
    have hWF2 : WF ({ db with readOnlyCount := (db.readOnlyCount + k) % W }) := hWF
    have hstep := readOnly_step ({ db with readOnlyCount := (db.readOnlyCount + k) % W })
      hWF2 hR
    rw [iterReadOnly, ih, hstep.1]
    simp [add_one_mod_W, Nat.add_assoc]

lemma add_mod_window_hit (a R j : Nat) (hR : 0 < R) (hj : j < R) :
    (a + (j + R - a % R) % R) % R = j := by
  have hr : a % R < R := Nat.mod_lt _ hR
  rw [Nat.add_mod a _ R, Nat.mod_mod_of_dvd _ dvd_rfl]
  rcases Nat.lt_or_ge (j + R - a % R) R with hlt | hge
  · rw [Nat.mod_eq_of_lt hlt]
    have heq : a % R + (j + R - a % R) = j + R := by omega
    rw [heq, Nat.add_mod_right, Nat.mod_eq_of_lt hj]
  · have heq2 : (j + R - a % R) % R = j + R - a % R - R := by
      rw [Nat.mod_eq_sub_mod hge, Nat.mod_eq_of_lt (by omega)]
    rw [heq2]
    have heq3 : a % R + (j + R - a % R - R) = j := by omega
    rw [heq3, Nat.mod_eq_of_lt hj]

/-- Unique-solution lemma for round-robin fairness: on any block of `R`
consecutive counter values, each residue below `R` is hit exactly once. -/
lemma existsUnique_mod_window (a R j : Nat) (hR : 0 < R) (hj : j < R) :
    ∃! k, k < R ∧ (a + k) % R = j := by
  refine ⟨(j + R - a % R) % R, ⟨Nat.mod_lt _ hR, add_mod_window_hit a R j hR hj⟩, ?_⟩
  intro y ⟨hy, hmody⟩
  have hx : ((j + R - a % R) % R) < R := Nat.mod_lt _ hR
  have hcong : y % R = ((j + R - a % R) % R) % R := by
    have h1 : (a + y) % R = (a + (j + R - a % R) % R) % R := by
      rw [hmody, add_mod_window_hit a R j hR hj]
    exact Nat.ModEq.add_left_cancel' a (h1 : Nat.ModEq R (a + y) _)
  rw [Nat.mod_eq_of_lt hy, Nat.mod_eq_of_lt hx] at hcong
  exact hcong

end Helpers

section ClaimC1

/-- A connection set with three replicas and a fresh counter, used to witness
the round-robin theorem. -/
def c1db : DBImplementation Nat :=
  { readWriteDB := 1, readOnlyDBs := [10, 20, 30], totalConnections := 4,
    readOnlyCount := 0 }

/-- The same connection set with the `uint64` counter at its maximum value:
the next `atomic.AddUint64` wraps to `0`. -/
def c1dbWrapA : DBImplementation Nat :=
  { readWriteDB := 1, readOnlyDBs := [10, 20, 30], totalConnections := 4,
    readOnlyCount := W - 1 }

/-- The same connection set with the counter three steps before the wrap, so
that a window of three consecutive reads crosses the wrap. -/
def c1dbWrapB : DBImplementation Nat :=
  { readWriteDB := 1, readOnlyDBs := [10, 20, 30], totalConnections := 4,
    readOnlyCount := W - 3 }

/-- C1, counterexample: with `R = 3` replicas and the counter at `2^64 - 1`,
the code's `ReadOnly()` wraps the counter to `0` and returns replica index
`0 % 3 = 0` (handle `10`), while the claim's formula `(c+1) mod R` gives
`2^64 mod 3 = 1` (handle `20`); and the three-call window starting at counter
`2^64 - 3` selects handles `30, 10, 10`, visiting replica `10` twice and
replica `20` never. -/
theorem readOnly_roundRobin_claim_cex :
    (ReadOnly c1dbWrapA).1 ≠
        c1dbWrapA.readOnlyDBs[(c1dbWrapA.readOnlyCount + 1) % c1dbWrapA.readOnlyDBs.length]?
      ∧ [nthReadOnly c1dbWrapB 0, nthReadOnly c1dbWrapB 1, nthReadOnly c1dbWrapB 2]
          = [some 30, some 10, some 10] := by
  constructor
  · decide
  · decide

/-- C1 (amended): for a connection set with `R ≥ 1` replicas, the call made
when the shared counter holds `c` returns `replicas[((c+1) mod 2^64) mod R]`
— the `uint64` counter wraps at `2^64` — and over any window of `R`
consecutive `ReadOnly()` calls during which the counter does not wrap, every
replica index is selected exactly once. -/
theorem readOnly_roundRobin_cycle {Conn : Type} (db : DBImplementation Conn)
    (hWF : WF db) (hR : 1 ≤ db.readOnlyDBs.length) (hc : db.readOnlyCount < W) :
    (∀ k, nthReadOnlyIndex db k
            = ((db.readOnlyCount + 1 + k) % W) % db.readOnlyDBs.length
          ∧ nthReadOnly db k
            = db.readOnlyDBs[((db.readOnlyCount + 1 + k) % W) % db.readOnlyDBs.length]?)
      ∧ (db.readOnlyCount + db.readOnlyDBs.length < W →
          ∀ j < db.readOnlyDBs.length,
            ∃! k, k < db.readOnlyDBs.length ∧ nthReadOnlyIndex db k = j) := by
  have hiter := iterReadOnly_spec db hWF hR hc
  have hidx : ∀ k, nthReadOnlyIndex db k
      = ((db.readOnlyCount + 1 + k) % W) % db.readOnlyDBs.length := by
    intro k
    rw [nthReadOnlyIndex, hiter k, roundRobin]
    simp only [add_one_mod_W]
    congr 2
    omega
  constructor
  · intro k
    refine ⟨hidx k, ?_⟩
    have hstep := readOnly_step ({ db with readOnlyCount := (db.readOnlyCount + k) % W })
      hWF hR
    rw [nthReadOnly, hiter k, hstep.2]
    simp only [add_one_mod_W]
    congr 3
    omega
  · intro hwin j hj
    obtain ⟨k, ⟨hk, hkey⟩, huniq⟩ :=
      existsUnique_mod_window (db.readOnlyCount + 1) db.readOnlyDBs.length j
        (by omega) hj
    have hsmall : ∀ m, m < db.readOnlyDBs.length →
        nthReadOnlyIndex db m = (db.readOnlyCount + 1 + m) % db.readOnlyDBs.length := by
      intro m hm
      have hlt : db.readOnlyCount + 1 + m < W := by omega
      rw [hidx m, Nat.mod_eq_of_lt hlt]
    refine ⟨k, ⟨hk, by rw [hsmall k hk]; exact hkey⟩, ?_⟩
    intro y ⟨hy, hyidx⟩
    exact huniq y ⟨hy, by rw [hsmall y hy] at hyidx; exact hyidx⟩

/-- C1, witness: on the three-replica set with counter `0`, the first call
returns `replicas[1 % 3]` and replica index `0` is selected exactly once in
the first window of three calls. -/
theorem readOnly_roundRobin_cycle_witness :
    nthReadOnly c1db 0
        = c1db.readOnlyDBs[((c1db.readOnlyCount + 1 + 0) % W) % c1db.readOnlyDBs.length]?
      ∧ ∃! k, k < c1db.readOnlyDBs.length ∧ nthReadOnlyIndex c1db k = 0 :=
  ⟨((readOnly_roundRobin_cycle c1db (by decide) (by decide) (by decide)).1 0).2,
   (readOnly_roundRobin_cycle c1db (by decide) (by decide) (by decide)).2
     (by decide) 0 (by decide)⟩

end ClaimC1

section MoreHelpers

variable {Conn Handle : Type}

lemma readOnly_fields (db : DBImplementation Conn) :
    (ReadOnly db).2.readWriteDB = db.readWriteDB
      ∧ (ReadOnly db).2.readOnlyDBs = db.readOnlyDBs
      ∧ (ReadOnly db).2.totalConnections = db.totalConnections := by
  rw [ReadOnly]
  split <;> simp [roundRobin]

lemma roStmt_fields (s : stmt Handle) (db : DBImplementation Conn) :
    (stmt.ROStmt s db).2.readWriteDB = db.readWriteDB
      ∧ (stmt.ROStmt s db).2.readOnlyDBs = db.readOnlyDBs
      ∧ (stmt.ROStmt s db).2.totalConnections = db.totalConnections := by
  rw [stmt.ROStmt]
  split <;> simp [roundRobin]

lemma applyOp_readWriteDB (db : DBImplementation Conn) (op : Op Conn Handle) :
    (applyOp db op).readWriteDB = db.readWriteDB := by
  cases op with
  | readOnly => exact (readOnly_fields db).1
  | stmtRead s => exact (roStmt_fields s db).1
  | readWrite => rfl
  | execOp => rfl
  | beginOp => rfl
  | pingOp => rfl
  | setPool e => rfl

lemma runOps_readWriteDB (ops : List (Op Conn Handle)) (db : DBImplementation Conn) :
    (runOps db ops).readWriteDB = db.readWriteDB := by
  induction ops generalizing db with
  | nil => rfl
  | cons op ops ih => rw [runOps, ih, applyOp_readWriteDB]

end MoreHelpers

section ClaimC2

/-- A connection set with zero replicas, used to witness the primary-fallback
theorem. -/
def c2db : DBImplementation Nat :=
  { readWriteDB := 7, readOnlyDBs := [], totalConnections := 1, readOnlyCount := 0 }

/-- A prepared statement with no replica prepared handles. -/
def c2stmt : stmt Nat :=
  { rwstmt := some 70, rostmts := [] }

/-- C2: with zero replicas, `ReadOnly()` (hence the connection-set read
methods `Query`, `QueryRow` and their context variants, which delegate to it)
returns the primary handle without touching the counter, and a statement with
no replica prepared handles resolves its read methods to the primary's
prepared handle. -/
theorem zeroReplicas_reads_use_primary {Conn Handle : Type}
    (db : DBImplementation Conn) (hWF : WF db) (hrep : db.readOnlyDBs = []) :
    ReadOnly db = (some db.readWriteDB, db)
      ∧ QueryTarget db = (some db.readWriteDB, db)
      ∧ ∀ s : stmt Handle, s.rostmts = [] →
          stmt.QueryTarget s db = (s.rwstmt, db) ∧ stmt.ROStmt s db = (s.rwstmt, db) := by
  have h1 : db.totalConnections = 1 := by
    rw [WF, hrep] at hWF
    simpa using hWF
  have hro : ReadOnly db = (some db.readWriteDB, db) := by
    rw [ReadOnly, if_pos h1]
  refine ⟨hro, hro, ?_⟩
  intro s hs
  have h2 : stmt.ROStmt s db = (s.rwstmt, db) := by
    rw [stmt.ROStmt, hs]
    simp
  exact ⟨h2, h2⟩

/-- C2, witness: the zero-replica set routes `ReadOnly()` and the
replica-less statement's reads to the primary. -/
theorem zeroReplicas_reads_use_primary_witness :
    ReadOnly c2db = (some c2db.readWriteDB, c2db)
      ∧ stmt.ROStmt c2stmt c2db = (c2stmt.rwstmt, c2db) :=
  ⟨(@zeroReplicas_reads_use_primary Nat Nat c2db (by decide) (by decide)).1,
   ((zeroReplicas_reads_use_primary c2db (by decide) (by decide)).2.2 c2stmt
     (by decide)).2⟩

end ClaimC2

section ClaimC3

/-- C3: `ReadWrite()` returns the stored primary on every call — after any
sequence of operations the primary field is unchanged, so repeated calls all
return the handle installed at construction: `WrapDBs` installs the first
list element and `Open` installs the handle opened from segment 0 — and
`Exec`/`ExecContext`/`Begin`/`BeginTx` delegate to exactly that handle. -/
theorem readWrite_constant_and_writes_delegate {Conn Handle ε : Type}
    [Inhabited Conn] (db : DBImplementation Conn) (ops : List (Op Conn Handle)) :
    ReadWrite (runOps db ops) = ReadWrite db
      ∧ ReadWrite db = db.readWriteDB
      ∧ ExecTarget db = ReadWrite db
      ∧ BeginTarget db = ReadWrite db
      ∧ (∀ (d : Conn) (rest : List Conn),
          (WrapDBs (d :: rest)).map (fun x => ReadWrite x) = some d)
      ∧ (∀ (openConn : List Char → Except ε Conn) (dsn : List Char)
          (order : List Nat) (db' : DBImplementation Conn),
          Open openConn dsn order = .ok db' →
          ReadWrite db'
            = ((openConn ((goSplit ';' dsn).headD [])).toOption).getD default) := by
  refine ⟨?_, rfl, rfl, rfl, fun d rest => rfl, ?_⟩
  · rw [ReadWrite, ReadWrite, runOps_readWriteDB]
  · intro openConn dsn order db' hok
    rw [Open] at hok
    cases hdc : doConcurrent (goSplit ';' dsn).length
        (openErrAt openConn (goSplit ';' dsn)) order with
    | some e => rw [hdc] at hok; exact Except.noConfusion hok
    | none =>
      rw [hdc] at hok
      injection hok with hok
      subst hok
      rfl

/-- A three-replica set and a short operation sequence for the C3 witness. -/
def c3db : DBImplementation Nat :=
  { readWriteDB := 9, readOnlyDBs := [10, 20], totalConnections := 3,
    readOnlyCount := 0 }

/-- A sample operation sequence: a routed read, a write, a statement read. -/
def c3ops : List (Op Nat Nat) :=
  [Op.readOnly, Op.execOp, Op.stmtRead { rwstmt := some 90, rostmts := [some 91] }]

/-- The connection set `Open` builds from the source `"ab;c"` with `openConn`
returning the segment length. -/
def c3dbOpen : DBImplementation Nat :=
  { readWriteDB := 2, readOnlyDBs := [1], totalConnections := 2,
    readOnlyCount := 0 }

/-- C3, witness: after the sample operation sequence `ReadWrite()` still
returns handle `9`, and the set opened from `"ab;c"` has the segment-0
handle (length of `"ab"`, i.e. `2`) as its primary. -/
theorem readWrite_constant_and_writes_delegate_witness :
    ReadWrite (runOps c3db c3ops) = ReadWrite c3db
      ∧ ReadWrite c3dbOpen = 2 :=
  ⟨(@readWrite_constant_and_writes_delegate Nat Nat Nat _ c3db c3ops).1,
   ((@readWrite_constant_and_writes_delegate Nat Nat Nat _ c3db
       ([] : List (Op Nat Nat))).2.2.2.2.2 (fun s => .ok s.length)
       "ab;c".toList [0, 1] c3dbOpen rfl).trans rfl⟩

end ClaimC3

section ClaimC4

/-- A concrete observation order for three goroutines: index 2's result is
received first, index 1's last. -/
def c4order : List Nat := [2, 0, 1]

/-- A concrete per-index operation where indices 1 and 2 fail. -/
def c4fn : Nat → Option Nat :=
  fun i => if i = 1 then some 11 else if i = 2 then some 22 else none

/-- C4: `doConcurrent(N, fn)` invokes `fn` exactly once per index `0..N-1`
(each index occurs exactly once in the observation order, with no
short-circuiting — the collecting loop always drains all `N` results),
returns nil exactly when every invocation returned nil, and otherwise
returns the last non-nil error in the order the collecting loop observed
the results. -/
theorem doConcurrent_runs_all_keeps_last_error {ε : Type} (n : Nat)
    (fn : Nat → Option ε) (order : List Nat) (h : order.Perm (List.range n)) :
    (∀ i < n, order.count i = 1)
      ∧ (doConcurrent n fn order = none ↔ ∀ i < n, fn i = none)
      ∧ doConcurrent n fn order = ((order.map fn).filterMap id).getLast? := by
  refine ⟨?_, doConcurrent_eq_none_iff n fn order h, collectErrors_eq (order.map fn)⟩
  intro i hi
  have hnd : order.Nodup := h.nodup_iff.mpr (List.nodup_range n)
  exact List.count_eq_one_of_mem hnd (h.mem_iff.mpr (List.mem_range.mpr hi))

/-- C4, witness: with three operations of which indices 1 and 2 fail, and the
collecting loop observing them in the order 2, 0, 1, each index is observed
once and the result is the last observed failure. -/
theorem doConcurrent_runs_all_keeps_last_error_witness :
    c4order.count 0 = 1
      ∧ doConcurrent 3 c4fn c4order = ((c4order.map c4fn).filterMap id).getLast? :=
  ⟨(doConcurrent_runs_all_keeps_last_error 3 c4fn c4order (by decide)).1 0 (by decide),
   (doConcurrent_runs_all_keeps_last_error 3 c4fn c4order (by decide)).2.2⟩

end ClaimC4

section ClaimC5

/-- A connection set with three replicas and counter `4`, and a statement
prepared on it, used to witness the shared-counter theorem. -/
def c5db : DBImplementation Nat :=
  { readWriteDB := 1, readOnlyDBs := [10, 20, 30], totalConnections := 4,
    readOnlyCount := 4 }

/-- A prepared statement over the three replicas. -/
def c5stmt : stmt Nat :=
  { rwstmt := some 100, rostmts := [some 110, some 120, some 130] }

/-- The same connection set with the counter two steps before the `uint64`
wrap. -/
def c5dbWrap : DBImplementation Nat :=
  { readWriteDB := 1, readOnlyDBs := [10, 20, 30], totalConnections := 4,
    readOnlyCount := W - 2 }

/-- C5, counterexample: with the counter at `2^64 - 2`, the interleaved
`ReadOnly()` call selects replica index `(2^64-1) mod 3 = 0` and the
following statement read wraps the counter and again selects index
`0 mod 3 = 0` (handle `110`), not index `N+1 = 1` (handle `120`) as the
claim's `N then N+1 (mod R)` sequence requires. -/
theorem sharedCounter_interleaved_claim_cex :
    (ReadOnly c5dbWrap).1 = c5dbWrap.readOnlyDBs[0]?
      ∧ (stmt.ROStmt c5stmt (ReadOnly c5dbWrap).2).1 = (c5stmt.rostmts[0]?).join
      ∧ (c5stmt.rostmts[0]?).join ≠ (c5stmt.rostmts[(0 + 1) % 3]?).join := by
  refine ⟨by decide, by decide, by decide⟩

/-- C5 (amended): statement-level and connection-set-level reads advance the
one shared counter: interleaving a `ReadOnly()` call and a statement read
advances a single shared sequence, and as long as the two increments do not
cross the `2^64` wrap the selected indices are `N` then `N+1 (mod R)`. -/
theorem sharedCounter_interleaved_reads {Conn Handle : Type}
    (db : DBImplementation Conn) (s : stmt Handle) (hWF : WF db)
    (hR : 1 ≤ db.readOnlyDBs.length)
    (hs : s.rostmts.length = db.readOnlyDBs.length)
    (hc : db.readOnlyCount + 2 < W) :
    (ReadOnly db).1
        = db.readOnlyDBs[(db.readOnlyCount + 1) % db.readOnlyDBs.length]?
      ∧ (stmt.ROStmt s (ReadOnly db).2).1
        = (s.rostmts[(db.readOnlyCount + 2) % db.readOnlyDBs.length]?).join
      ∧ (db.readOnlyCount + 2) % db.readOnlyDBs.length
        = ((db.readOnlyCount + 1) % db.readOnlyDBs.length + 1) % db.readOnlyDBs.length
      ∧ (stmt.ROStmt s (ReadOnly db).2).2.readOnlyCount = db.readOnlyCount + 2 := by
  have hstep := readOnly_step db hWF hR
  have h1 : (db.readOnlyCount + 1) % W = db.readOnlyCount + 1 :=
    Nat.mod_eq_of_lt (by omega)
  have h2 : (db.readOnlyCount + 1 + 1) % W = db.readOnlyCount + 2 :=
    Nat.mod_eq_of_lt (by omega)
  have hlen : ¬ s.rostmts.length = 0 := by omega
  have hro2 : stmt.ROStmt s (ReadOnly db).2
      = ((s.rostmts[(db.readOnlyCount + 2) % s.rostmts.length]?).join,
         { db with readOnlyCount := db.readOnlyCount + 2 }) := by
    rw [hstep.1, stmt.ROStmt, if_neg hlen, roundRobin]
    simp only [h1, h2]
  refine ⟨?_, ?_, ?_, ?_⟩
  · rw [hstep.2, h1]
  · rw [hro2, hs]
  · rw [succ_mod_mod (db.readOnlyCount + 1) db.readOnlyDBs.length]
  · rw [hro2]

/-- C5, witness: on the three-replica set with counter `4`, a `ReadOnly()`
call then a statement read select indices `5 mod 3` and `6 mod 3 = (5 mod 3
+ 1) mod 3`, and leave the shared counter at `6`. -/
theorem sharedCounter_interleaved_reads_witness :
    (ReadOnly c5db).1
        = c5db.readOnlyDBs[(c5db.readOnlyCount + 1) % c5db.readOnlyDBs.length]?
      ∧ (stmt.ROStmt c5stmt (ReadOnly c5db).2).1
        = (c5stmt.rostmts[(c5db.readOnlyCount + 2) % c5db.readOnlyDBs.length]?).join
      ∧ (c5db.readOnlyCount + 2) % c5db.readOnlyDBs.length
        = ((c5db.readOnlyCount + 1) % c5db.readOnlyDBs.length + 1)
            % c5db.readOnlyDBs.length
      ∧ (stmt.ROStmt c5stmt (ReadOnly c5db).2).2.readOnlyCount
        = c5db.readOnlyCount + 2 :=
  sharedCounter_interleaved_reads c5db c5stmt (by decide) (by decide) (by decide)
    (by decide)

end ClaimC5

section ClaimC6

variable {Conn Handle ε : Type}

lemma isOk_toOption_isSome (x : Except ε α) (h : x.isOk = true) :
    x.toOption.isSome = true := by
  cases x with
  | error e => simp [Except.isOk, Except.toBool] at h
  | ok a => rfl

/-- With the structural invariant, the fan-out of `Prepare` reports no error
on any index exactly when the prepare succeeded on the primary and on every
replica. -/
lemma prepErrAt_all_none_iff (db : DBImplementation Conn)
    (prep : Conn → Except ε Handle) (hWF : WF db) :
    (∀ i < db.totalConnections, prepErrAt db prep i = none)
      ↔ ((prep db.readWriteDB).isOk = true
          ∧ ∀ c ∈ db.readOnlyDBs, (prep c).isOk = true) := by
  rw [WF] at hWF
  constructor
  · intro hall
    constructor
    · have h0 := hall 0 (by omega)
      rw [prepErrAt, if_pos rfl] at h0
      exact (errOpt_eq_none_iff _).mp h0
    · intro c hc
      obtain ⟨j, hj, rfl⟩ := List.mem_iff_getElem.mp hc
      have hj1 := hall (j + 1) (by omega)
      rw [prepErrAt, if_neg (by omega), Nat.add_sub_cancel,
        List.getElem?_eq_getElem hj] at hj1
      exact (errOpt_eq_none_iff _).mp hj1
  · intro ⟨h0, hrep⟩ i hi
    match i with
    | 0 =>
      rw [prepErrAt, if_pos rfl]
      exact (errOpt_eq_none_iff _).mpr h0
    | j + 1 =>
      have hj : j < db.readOnlyDBs.length := by omega
      rw [prepErrAt, if_neg (by omega), Nat.add_sub_cancel,
        List.getElem?_eq_getElem hj]
      exact (errOpt_eq_none_iff _).mpr
        (hrep _ (List.getElem_mem hj))

/-- C6: `Prepare` (and `PrepareContext`, which has the same structure with a
context threaded through) returns an error exactly when the prepare fails on
the primary or on some replica — and then returns only the error, the
partially built statement being discarded — and on success returns a
statement holding the primary's prepared handle plus the replica prepared
handles in the same length and order as the replica list. -/
theorem prepare_error_iff_any_fails {Conn Handle ε : Type}
    (db : DBImplementation Conn) (prep : Conn → Except ε Handle)
    (order : List Nat) (hWF : WF db)
    (hord : order.Perm (List.range db.totalConnections)) :
    ((∃ e, Prepare db prep order = .error e)
        ↔ ((prep db.readWriteDB).isOk = false
            ∨ ∃ c ∈ db.readOnlyDBs, (prep c).isOk = false))
      ∧ ∀ s, Prepare db prep order = .ok s →
          s.rwstmt = (prep db.readWriteDB).toOption
            ∧ s.rostmts = db.readOnlyDBs.map (fun c => (prep c).toOption)
            ∧ s.rostmts.length = db.readOnlyDBs.length
            ∧ s.rwstmt.isSome = true
            ∧ ∀ h2 ∈ s.rostmts, h2.isSome = true := by
  have hiff := (doConcurrent_eq_none_iff db.totalConnections (prepErrAt db prep)
    order hord).trans (prepErrAt_all_none_iff db prep hWF)
  constructor
  · cases hdc : doConcurrent db.totalConnections (prepErrAt db prep) order with
    | some e =>
      constructor
      · intro _
        have : ¬ ((prep db.readWriteDB).isOk = true
            ∧ ∀ c ∈ db.readOnlyDBs, (prep c).isOk = true) := by
          intro hall
          rw [← hiff] at hall
          rw [hall] at hdc
          exact Option.noConfusion hdc
        rcases Decidable.not_and_iff_or_not.mp this with h | h
        · exact Or.inl (Bool.not_eq_true _ ▸ (Bool.eq_false_iff.mpr (fun hx => h hx)))
        · right
          push_neg at h
          obtain ⟨c, hc, hne⟩ := h
          exact ⟨c, hc, Bool.eq_false_iff.mpr hne⟩
      · intro _
        exact ⟨e, by rw [Prepare, hdc]⟩
    | none =>
      have hall := hiff.mp hdc
      constructor
      · intro ⟨e, he⟩
        rw [Prepare, hdc] at he
        exact Except.noConfusion he
      · intro h
        rcases h with h | ⟨c, hc, hfalse⟩
        · rw [hall.1] at h
          exact Bool.noConfusion h
        · rw [hall.2 c hc] at hfalse
          exact Bool.noConfusion hfalse
  · intro s hs
    cases hdc : doConcurrent db.totalConnections (prepErrAt db prep) order with
    | some e =>
      rw [Prepare, hdc] at hs
      exact Except.noConfusion hs
    | none =>
      have hall := hiff.mp hdc
      rw [Prepare, hdc] at hs
      injection hs with hs
      subst hs
      refine ⟨rfl, rfl, by simp, isOk_toOption_isSome _ hall.1, ?_⟩
      intro h2 hh2
      simp only [List.mem_map] at hh2
      obtain ⟨c, hc, rfl⟩ := hh2
      exact isOk_toOption_isSome _ (hall.2 c hc)

/-- A connection set with two replicas for the `Prepare` witness. -/
def c6db : DBImplementation Nat :=
  { readWriteDB := 1, readOnlyDBs := [10, 20], totalConnections := 3,
    readOnlyCount := 0 }

/-- A prepare that fails on replica `20`. -/
def c6prepFail : Nat → Except Nat Nat :=
  fun c => if c = 20 then .error 99 else .ok (c + 1)

/-- A prepare that succeeds everywhere. -/
def c6prepOk : Nat → Except Nat Nat :=
  fun c => .ok (c + 1)

/-- The statement `Prepare` builds from `c6prepOk` on `c6db`. -/
def c6stmtOk : stmt Nat :=
  { rwstmt := some 2, rostmts := [some 11, some 21] }

/-- C6, witness: on the two-replica set, a prepare failing on one replica
makes `Prepare` return an error, and an everywhere-successful prepare yields
a statement whose replica handle list matches the replica list in length. -/
theorem prepare_error_iff_any_fails_witness :
    (∃ e, Prepare c6db c6prepFail [0, 1, 2] = .error e)
      ∧ c6stmtOk.rostmts.length = c6db.readOnlyDBs.length :=
  ⟨(prepare_error_iff_any_fails c6db c6prepFail [0, 1, 2] (by decide)
      (by decide)).1.mpr (by decide),
   ((prepare_error_iff_any_fails c6db c6prepOk [0, 1, 2] (by decide)
      (by decide)).2 c6stmtOk rfl).2.2.1⟩

end ClaimC6

section ClaimC7

/-- C7: constructing from a pre-built handle list panics exactly when the
list is empty; a one-element list yields that element as primary with no
replicas; in general the first element is the primary and the rest are the
replicas in order, with `totalConnections` the list length and the counter
zero. -/
theorem wrapDBs_first_primary_rest_replicas {Conn : Type} (d : Conn)
    (rest dbs : List Conn) :
    WrapDBs ([] : List Conn) = none
      ∧ (WrapDBs dbs = none ↔ dbs = [])
      ∧ WrapDBs [d] =
          some { readWriteDB := d, readOnlyDBs := [], totalConnections := 1,
                 readOnlyCount := 0 }
      ∧ WrapDBs (d :: rest) =
          some { readWriteDB := d, readOnlyDBs := rest,
                 totalConnections := rest.length + 1, readOnlyCount := 0 } := by
  refine ⟨rfl, ?_, rfl, ?_⟩
  · cases dbs with
    | nil => simp [WrapDBs]
    | cons x xs => simp [WrapDBs]
  · rw [WrapDBs]
    simp

/-- C7, witness: wrapping the empty list panics, and wrapping `[5, 6]` gives
primary `5` with replica list `[6]`. -/
theorem wrapDBs_first_primary_rest_replicas_witness :
    WrapDBs ([] : List Nat) = none
      ∧ WrapDBs [5, 6] =
          some { readWriteDB := 5, readOnlyDBs := [6], totalConnections := 2,
                 readOnlyCount := 0 } :=
  ⟨(wrapDBs_first_primary_rest_replicas (0 : Nat) [] []).1,
   (wrapDBs_first_primary_rest_replicas (5 : Nat) [6] [5, 6]).2.2.2⟩

end ClaimC7

section ClaimC8

/-- A one-replica connection set with the counter at the `uint64` maximum. -/
def c8dbMax : DBImplementation Nat :=
  { readWriteDB := 1, readOnlyDBs := [10], totalConnections := 2,
    readOnlyCount := W - 1 }

/-- A one-replica connection set with a small counter. -/
def c8db : DBImplementation Nat :=
  { readWriteDB := 1, readOnlyDBs := [10], totalConnections := 2,
    readOnlyCount := 5 }

/-- A statement with one replica prepared handle. -/
def c8stmt : stmt Nat :=
  { rwstmt := some 100, rostmts := [some 110] }

/-- C8, counterexample: with the `uint64` counter at `2^64 - 1`, the next
`ReadOnly()` call's `atomic.AddUint64` overflows and the counter becomes `0`,
a strictly smaller value — so the counter does not "only ever increase". -/
theorem counter_decreases_at_wrap_cex :
    (ReadOnly c8dbMax).2.readOnlyCount < c8dbMax.readOnlyCount := by decide

/-- C8 (amended): every read-routing call — `ReadOnly()` with at least one
replica, or a statement read with at least one replica handle — replaces the
shared counter by exactly `(c+1) mod 2^64` (atomic fetch-add of 1 with
`uint64` overflow), so it strictly increases whenever it is below `2^64 - 1`
and wraps to `0` there; no other operation of the connection set or of a
statement changes the counter at all. -/
theorem counter_increment_only {Conn Handle : Type} (db : DBImplementation Conn)
    (hWF : WF db) (hR : 1 ≤ db.readOnlyDBs.length) :
    (ReadOnly db).2.readOnlyCount = (db.readOnlyCount + 1) % W
      ∧ (∀ s : stmt Handle, s.rostmts ≠ [] →
          (stmt.ROStmt s db).2.readOnlyCount = (db.readOnlyCount + 1) % W)
      ∧ (db.readOnlyCount + 1 < W →
          db.readOnlyCount < (ReadOnly db).2.readOnlyCount)
      ∧ (applyOp db (Op.readWrite : Op Conn Handle)).readOnlyCount = db.readOnlyCount
      ∧ (applyOp db (Op.execOp : Op Conn Handle)).readOnlyCount = db.readOnlyCount
      ∧ (applyOp db (Op.beginOp : Op Conn Handle)).readOnlyCount = db.readOnlyCount
      ∧ (applyOp db (Op.pingOp : Op Conn Handle)).readOnlyCount = db.readOnlyCount
      ∧ ∀ e : Int, (applyOp db (Op.setPool e : Op Conn Handle)).readOnlyCount
          = db.readOnlyCount := by
  have hstep := readOnly_step db hWF hR
  have hro : (ReadOnly db).2.readOnlyCount = (db.readOnlyCount + 1) % W := by
    rw [hstep.1]
  refine ⟨hro, ?_, ?_, rfl, rfl, rfl, rfl, fun e => rfl⟩
  · intro s hs
    have hlen : ¬ s.rostmts.length = 0 := by
      simpa [List.length_eq_zero] using hs
    rw [stmt.ROStmt, if_neg hlen, roundRobin]
  · intro hlt
    rw [hro, Nat.mod_eq_of_lt hlt]
    omega

/-- C8, witness: on the one-replica set with counter `5`, a `ReadOnly()` call
and a statement read each set the counter to `6 mod 2^64`, a strict increase,
and the write/transaction/ping/pool operations leave it at `5`. -/
theorem counter_increment_only_witness :
    (ReadOnly c8db).2.readOnlyCount = (c8db.readOnlyCount + 1) % W
      ∧ (stmt.ROStmt c8stmt c8db).2.readOnlyCount = (c8db.readOnlyCount + 1) % W
      ∧ c8db.readOnlyCount < (ReadOnly c8db).2.readOnlyCount
      ∧ (applyOp c8db (Op.readWrite : Op Nat Nat)).readOnlyCount
        = c8db.readOnlyCount :=
  ⟨(@counter_increment_only Nat Nat c8db (by decide) (by decide)).1,
   (@counter_increment_only Nat Nat c8db (by decide) (by decide)).2.1
     c8stmt (by decide),
   (@counter_increment_only Nat Nat c8db (by decide) (by decide)).2.2.1
     (by decide),
   (@counter_increment_only Nat Nat c8db (by decide) (by decide)).2.2.2.1⟩

end ClaimC8

section ClaimC9

/-- C9: each pool-configuration operation delegates one void setter call per
underlying connection, to the primary first and then to each replica in list
order, every call carrying the same argument; the trace is exactly one event
per connection and nothing is returned (the model's return value is the call
trace alone — there is no error component, matching the void Go methods). -/
theorem poolConfig_sequential_uniform {Conn : Type} (db : DBImplementation Conn)
    (n d : Int) :
    (SetMaxIdleConns db n).map PoolEvent.target = db.readWriteDB :: db.readOnlyDBs
      ∧ (SetMaxOpenConns db n).map PoolEvent.target = db.readWriteDB :: db.readOnlyDBs
      ∧ (SetConnMaxLifetime db d).map PoolEvent.target = db.readWriteDB :: db.readOnlyDBs
      ∧ (SetConnMaxIdleTime db d).map PoolEvent.target = db.readWriteDB :: db.readOnlyDBs
      ∧ (∀ c ∈ db.readWriteDB :: db.readOnlyDBs,
          PoolEvent.maxIdleConns c n ∈ SetMaxIdleConns db n)
      ∧ (∀ c ∈ db.readWriteDB :: db.readOnlyDBs,
          PoolEvent.maxOpenConns c n ∈ SetMaxOpenConns db n)
      ∧ (∀ c ∈ db.readWriteDB :: db.readOnlyDBs,
          PoolEvent.connMaxLifetime c d ∈ SetConnMaxLifetime db d)
      ∧ (∀ c ∈ db.readWriteDB :: db.readOnlyDBs,
          PoolEvent.connMaxIdleTime c d ∈ SetConnMaxIdleTime db d) := by
  refine ⟨?_, ?_, ?_, ?_, ?_, ?_, ?_, ?_⟩ <;>
    simp only [SetMaxIdleConns, SetMaxOpenConns, SetConnMaxLifetime,
      SetConnMaxIdleTime, List.map_cons, List.map_map, PoolEvent.target] <;>
    first
      | (refine congrArg (List.cons _) ?_
         rw [show (PoolEvent.target ∘ fun roDB => _) = id from ?_, List.map_id]
         · rfl)
      | (intro c hc
         rcases List.mem_cons.mp hc with rfl | hc
         · exact List.mem_cons_self _ _
         · exact List.mem_cons_of_mem _ (List.mem_map_of_mem _ hc))

/-- A two-replica set for the pool-configuration witness. -/
def c9db : DBImplementation Nat :=
  { readWriteDB := 1, readOnlyDBs := [10, 20], totalConnections := 3,
    readOnlyCount := 0 }

/-- C9, witness: on the two-replica set, `SetMaxIdleConns 3` touches the
primary first then the replicas in order, and delivers the call with argument
`3` to replica `10`. -/
theorem poolConfig_sequential_uniform_witness :
    (SetMaxIdleConns c9db 3).map PoolEvent.target
        = c9db.readWriteDB :: c9db.readOnlyDBs
      ∧ PoolEvent.maxIdleConns 10 3 ∈ SetMaxIdleConns c9db 3 :=
  ⟨(poolConfig_sequential_uniform c9db 3 4).1,
   (poolConfig_sequential_uniform c9db 3 4).2.2.2.2.1 10 (by decide)⟩

end ClaimC9

section ClaimC10

lemma goSplit_length_pos (sep : Char) (l : List Char) :
    1 ≤ (goSplit sep l).length := by
  induction l with
  | nil => simp [goSplit]
  | cons c rest ih =>
    by_cases hc : c = sep
    · simp [goSplit, hc]
    · simp only [goSplit, if_neg hc]
      cases h : goSplit sep rest with
      | nil => simp
      | cons s ss => simp

lemma filterMap_length_of_all_isSome {α β : Type} (f : α → Option β)
    (l : List α) (h : ∀ a ∈ l, (f a).isSome = true) :
    (l.filterMap f).length = l.length := by
  induction l with
  | nil => rfl
  | cons a l ih =>
    have ha := h a (List.mem_cons_self a l)
    obtain ⟨b, hb⟩ := Option.isSome_iff_exists.mp ha
    rw [List.filterMap_cons, hb, List.length_cons, List.length_cons,
      ih (fun x hx => h x (List.mem_cons_of_mem a hx))]

/-- On the success path of `Open`, every segment's open succeeded. -/
lemma open_success_all_isSome {Conn ε : Type}
    (openConn : List Char → Except ε Conn) (conns : List (List Char))
    (order : List Nat) (hord : order.Perm (List.range conns.length))
    (hdc : doConcurrent conns.length (openErrAt openConn conns) order = none) :
    ∀ s ∈ conns, ((openConn s).toOption).isSome = true := by
  intro s hs
  obtain ⟨i, hi, rfl⟩ := List.mem_iff_getElem.mp hs
  have h := (doConcurrent_eq_none_iff _ _ order hord).mp hdc i hi
  rw [openErrAt, List.getElem?_eq_getElem hi] at h
  exact isOk_toOption_isSome _ ((errOpt_eq_none_iff _).mp h)

/-- C10: both constructors establish `totalConnections = 1 + length replicas`
(for `Open`, because splitting the data source name always yields at least
one segment), and the invariant puts every fan-out index `i` with
`1 ≤ i < totalConnections` strictly in bounds of the replica list — and, for
a statement built by `Prepare`, of the replica handle list, whose length
matches the replica list. -/
theorem constructors_establish_invariant {Conn Handle ε : Type} [Inhabited Conn] :
    (∀ (openConn : List Char → Except ε Conn) (dsn : List Char)
        (order : List Nat) (db' : DBImplementation Conn),
        order.Perm (List.range (goSplit ';' dsn).length) →
        Open openConn dsn order = .ok db' → WF db')
      ∧ (∀ (dbs : List Conn) (db' : DBImplementation Conn),
          WrapDBs dbs = some db' → WF db')
      ∧ (∀ db' : DBImplementation Conn, WF db' →
          ∀ i, 0 < i → i < db'.totalConnections → i - 1 < db'.readOnlyDBs.length)
      ∧ (∀ (db' : DBImplementation Conn) (prep : Conn → Except ε Handle)
          (order : List Nat) (s : stmt Handle),
          Prepare db' prep order = .ok s →
          s.rostmts.length = db'.readOnlyDBs.length) := by
  refine ⟨?_, ?_, ?_, ?_⟩
  · intro openConn dsn order db' hord hok
    rw [Open] at hok
    cases hdc : doConcurrent (goSplit ';' dsn).length
        (openErrAt openConn (goSplit ';' dsn)) order with
    | some e => rw [hdc] at hok; exact Except.noConfusion hok
    | none =>
      rw [hdc] at hok
      injection hok with hok
      subst hok
      have hall := open_success_all_isSome openConn (goSplit ';' dsn) order hord hdc
      have hlen : ((goSplit ';' dsn).drop 1).length = (goSplit ';' dsn).length - 1 := by
        simp
      rw [WF]
      simp only
      rw [filterMap_length_of_all_isSome _ _
        (fun a ha => hall a (List.mem_of_mem_drop ha)), hlen]
      have := goSplit_length_pos ';' dsn
      omega
  · intro dbs db' hok
    cases dbs with
    | nil => exact Option.noConfusion hok
    | cons d rest =>
      rw [WrapDBs] at hok
      injection hok with hok
      subst hok
      rw [WF]
      simp [Nat.add_comm]
  · intro db' hWF i hpos hlt
    rw [WF] at hWF
    omega
  · intro db' prep order s hok
    rw [Prepare] at hok
    cases hdc : doConcurrent db'.totalConnections (prepErrAt db' prep) order with
    | some e => rw [hdc] at hok; exact Except.noConfusion hok
    | none =>
      rw [hdc] at hok
      injection hok with hok
      subst hok
      simp

/-- The connection set `Open` builds from the two-segment source `"ab;c"`
with `openConn` returning the segment length. -/
def c10dbOpen : DBImplementation Nat :=
  { readWriteDB := 2, readOnlyDBs := [1], totalConnections := 2,
    readOnlyCount := 0 }

/-- The connection set `WrapDBs` builds from the two-handle list `[5, 6]`. -/
def c10dbWrap : DBImplementation Nat :=
  { readWriteDB := 5, readOnlyDBs := [6], totalConnections := 2,
    readOnlyCount := 0 }

/-- The statement `Prepare` builds on `c10dbOpen` with an always-ok prepare. -/
def c10stmt : stmt Nat :=
  { rwstmt := some 2, rostmts := [some 1] }

/-- C10, witness: the set opened from `"ab;c"` and the set wrapped from
`[5, 6]` both satisfy the invariant, fan-out index `1` is in bounds, and the
prepared statement's replica handle list matches the replica list length. -/
theorem constructors_establish_invariant_witness :
    WF c10dbOpen ∧ WF c10dbWrap
      ∧ (1 : Nat) - 1 < c10dbOpen.readOnlyDBs.length
      ∧ c10stmt.rostmts.length = c10dbOpen.readOnlyDBs.length :=
  ⟨(@constructors_establish_invariant Nat Nat Nat _).1
      (fun s => .ok s.length) "ab;c".toList [0, 1] c10dbOpen (by decide) rfl,
   (@constructors_establish_invariant Nat Nat Nat _).2.1
      [5, 6] c10dbWrap rfl,
   (@constructors_establish_invariant Nat Nat Nat _).2.2.1
      c10dbOpen (by decide) 1 (by decide) (by decide),
   (@constructors_establish_invariant Nat Nat Nat _).2.2.2
      c10dbOpen (fun c => .ok c) [0, 1] c10stmt rfl⟩

end ClaimC10

end DBRouter
